import Mathlib

set_option maxHeartbeats 1000000

namespace IndexProviderEngine

/-- Content identifiers. The Go code uses `cid.Cid` with the distinguished
zero value `cid.Undef`; we model a CID as either the undefined sentinel or a
defined identifier carrying a natural number (standing for the hash digest). -/
inductive Cid
| undef
| mk (n : Nat)
deriving DecidableEq, Repr

/-- The sentinel link `schema.NoEntries` ("no entries"), a fixed defined CID
distinct from `cid.Undef`. -/
def noEntriesCid : Cid := Cid.mk 0

/-- A multihash, modelled as opaque bytes. -/
abbrev Mh := List Nat

/-- Retrieval metadata (`metadata.Metadata` from go-libipni), modelled as the
opaque payload it carries; `md.Equal` is equality of the payload. -/
abbrev Metadata := List Nat

/-- The value `metadata.Default.New()` (and the zero value `metadata.Metadata\x7b\x7d`):
an empty-but-valid metadata. -/
def defaultMetadata : Metadata := []

/-- Errors surfaced by the engine. `notFound` is `datastore.ErrNotFound`;
`noMultihashLister`, `alreadyAdvertised` and `contextIDNotFound` are the
provider sentinel errors; `other` stands for any wrapped / external error
(`fmt.Errorf`, serialization failures, transport failures). In the Go code
every error return of the write path is paired with `cid.Undef` as the CID
result, so the `Except.error` constructor of our result type carries no CID. -/
inductive Err
| notFound
| noMultihashLister
| alreadyAdvertised
| contextIDNotFound
| other (msg : String)
deriving DecidableEq, Repr

deriving instance DecidableEq for Except

/-- Datastore keys. The Go code builds string keys from the reserved
namespaces `map/keyCid/`, `map/cidKey/`, `map/cidProvAndKey/`, `map/keyMD/`
and the singleton `sync/adv/`; for the engine's default provider the provider
segment is omitted from `keyCid` / `keyMD` keys (legacy single-provider
layout), otherwise the peer identity is prepended. We model the key space
structurally: the optional provider segment is `none` exactly when the Go
code omits it. -/
inductive Key
| keyCid (p : Option String) (x : String)
| cidKey (c : Cid)
| cidProvAndKey (c : Cid)
| keyMD (p : Option String) (x : String)
| latestAdv
deriving DecidableEq, Repr

/-- Values stored in the datastore, by their decoded shape: `cidB` for CID
bytes (rows of `keyCid` and the latest-ad pointer), `pc` for the JSON payload
`\x7bp: provider, c: contextID\x7d` of the new reverse mapping, `ctxOnly` for a
legacy reverse row holding just the context bytes, and `bytes` for opaque
metadata bytes. -/
inductive DsVal
| cidB (c : Cid)
| pc (p : String) (x : String)
| ctxOnly (x : String)
| bytes (b : List Nat)
deriving DecidableEq, Repr

/-- The key-value datastore, newest binding first. -/
abbrev DS := List (Key × DsVal)

/-- Datastore read (`ds.Get`): first binding for the key, `none` is
`datastore.ErrNotFound`. -/
def dsGet (ds : DS) (k : Key) : Option DsVal :=
  (ds.find? (fun kv => kv.1 = k)).map (fun kv => kv.2)

/-- Datastore write (`ds.Put`): newest binding shadows older ones. -/
def dsPut (ds : DS) (k : Key) (v : DsVal) : DS :=
  (k, v) :: ds

/-- Datastore delete (`ds.Delete`): removes every binding of the key. -/
def dsDelete (ds : DS) (k : Key) : DS :=
  ds.filter (fun kv => kv.1 ≠ k)

/-- An advertisement (`schema.Advertisement`) as assembled by
`publishAdvForIndex`: provider identity, addresses, entries link, context ID,
marshalled metadata bytes, removal flag, and the optional previous link. -/
structure Adv where
  provider : String
  addresses : List String
  entries : Cid
  contextID : String
  metadata : List Nat
  isRm : Bool
  previousID : Option Cid
deriving DecidableEq, Repr

/-- Engine state: the shared datastore plus the content-addressed block store
of the link system (`lsys.Store` writes the advertisement node under its
CID), newest block first. -/
structure State where
  ds : DS
  blocks : List (Cid × Adv)
deriving DecidableEq, Repr

/-- Look up a stored advertisement block by CID (the link-system load). -/
def lookupBlock (s : State) (c : Cid) : Option Adv :=
  (s.blocks.find? (fun kv => kv.1 = c)).map (fun kv => kv.2)

/-- The dagsync publisher operations used by the engine
(`UpdateRoot` / `UpdateRootWithAddrs`), as result oracles. -/
structure Publisher where
  updateRoot : Cid → Except Err Unit
  updateRootWithAddrs : Cid → List String → Except Err Unit

/-- Publisher kind configured at construction (`NoPublisher`,
`DataTransferPublisher`, `HttpPublisher`). -/
inductive PubKind
| noPub
| dataTransfer
| http
deriving DecidableEq, Repr

/-- The engine's configuration and its external collaborators, modelled as
oracles: the registered multihash lister (or none), the entries chunker
(`entriesChunker.Chunk`, returning `none` when chunking yields no link), the
metadata (un)marshaller, the signer (`adv.Sign`, returning an error on
failure), the structural validator (`adv.Validate`), the link-system store
(`lsys.Store`, computing the CID of an advertisement node), and the optional
dagsync publisher. `provider` / `providerAddrs` are the default provider
identity and address set from the options. -/
structure Env where
  provider : String
  providerAddrs : List String
  mhLister : Option (String → String → Except Err (List Mh))
  chunk : List Mh → Except Err (Option Cid)
  marshalMd : Metadata → Except Err (List Nat)
  unmarshalMd : List Nat → Except Err Metadata
  sign : Adv → Option Err
  validate : Adv → Option Err
  store : Adv → Except Err Cid
  publisher : Option Publisher
  pubKind : PubKind
  pubHttpAnnounceAddrs : List String

/-- Key of the forward mapping `keyToCid[provider, contextID]`; the provider
segment is omitted for the default provider (engine method `keyToCidKey`). -/
def keyToCidKey (e : Env) (p x : String) : Key :=
  if p = e.provider then Key.keyCid none x else Key.keyCid (some p) x

/-- Key of the legacy reverse mapping `cidToKey[c]` (engine method
`cidToKeyKey`). -/
def cidToKeyKey (c : Cid) : Key := Key.cidKey c

/-- Key of the new reverse mapping `cidToProviderAndKey[c]` (engine method
`cidToProviderAndKeyKey`). -/
def cidToProviderAndKeyKey (c : Cid) : Key := Key.cidProvAndKey c

/-- Key of the metadata mapping `keyToMetadata[provider, contextID]`; the
provider segment is omitted for the default provider (engine method
`keyToMetadataKey`). -/
def keyToMetadataKey (e : Env) (p x : String) : Key :=
  if p = e.provider then Key.keyMD none x else Key.keyMD (some p) x

/-- Decoding CID bytes (`cid.CidFromBytes`): succeeds exactly on values that
are stored CID bytes. -/
def cidFromBytes : DsVal → Except Err Cid
| DsVal.cidB c => Except.ok c
| _ => Except.error (Err.other "cid decode")

/-- Engine method `putLatestAdv`: store the latest advertisement CID under
the singleton key `sync/adv/`. -/
def putLatestAdv (ds : DS) (c : Cid) : DS :=
  dsPut ds Key.latestAdv (DsVal.cidB c)

/-- Engine method `getLatestAdCid`: read the latest advertisement CID;
`datastore.ErrNotFound` maps to `cid.Undef` with no error. -/
def getLatestAdCid (ds : DS) : Except Err Cid :=
  match dsGet ds Key.latestAdv with
  | none => Except.ok Cid.undef
  | some v => cidFromBytes v

/-- Engine method `putKeyCidMap`: store the forward row
`keyToCid[provider, contextID] = c` and the new reverse row
`cidToProviderAndKey[c] = \x7bprovider, contextID\x7d`. The legacy reverse
mapping `cidToKey` is never written. -/
def putKeyCidMap (e : Env) (s : State) (p x : String) (c : Cid) : State :=
  { s with ds := dsPut (dsPut s.ds (keyToCidKey e p x) (DsVal.cidB c))
                       (cidToProviderAndKeyKey c) (DsVal.pc p x) }

/-- Engine method `getKeyCidMap`: read and decode the forward row. -/
def getKeyCidMap (e : Env) (s : State) (p x : String) : Except Err Cid :=
  match dsGet s.ds (keyToCidKey e p x) with
  | none => Except.error Err.notFound
  | some v => cidFromBytes v

/-- Engine method `deleteKeyCidMap`: delete the forward row. -/
def deleteKeyCidMap (e : Env) (s : State) (p x : String) : State :=
  { s with ds := dsDelete s.ds (keyToCidKey e p x) }

/-- Engine method `deleteCidKeyMap`: delete the new reverse row first, then
the legacy reverse row. -/
def deleteCidKeyMap (s : State) (c : Cid) : State :=
  { s with ds := dsDelete (dsDelete s.ds (cidToProviderAndKeyKey c)) (cidToKeyKey c) }

/-- The JSON payload `providerAndContext` of the new reverse mapping. -/
structure ProviderAndContext where
  provider : String
  contextID : String
deriving DecidableEq, Repr

/-- Context bytes of a legacy reverse row: the Go code returns the raw stored
bytes as the context ID; legacy writers stored exactly the context bytes
(`ctxOnly`), any other shape decodes to its textual payload or nothing. -/
def legacyCtxVal : DsVal → String
| DsVal.ctxOnly x => x
| DsVal.pc _ x => x
| DsVal.cidB _ => ""
| DsVal.bytes _ => ""

/-- Engine method `getCidKeyMap`: probe the legacy `cidToKey` mapping first
(returning the default provider identity on a hit); on not-found, fall
through to the new `cidToProviderAndKey` mapping, substituting the default
provider when the stored provider field is empty. -/
def getCidKeyMap (e : Env) (s : State) (c : Cid) : Except Err ProviderAndContext :=
  match dsGet s.ds (cidToKeyKey c) with
  | some v => Except.ok { provider := e.provider, contextID := legacyCtxVal v }
  | none =>
    match dsGet s.ds (cidToProviderAndKeyKey c) with
    | none => Except.error Err.notFound
    | some (DsVal.pc q x) =>
      if q = "" then Except.ok { provider := e.provider, contextID := x }
      else Except.ok { provider := q, contextID := x }
    | some _ => Except.error (Err.other "json unmarshal")

/-- Engine method `putKeyMetadataMap`: marshal the metadata (which may fail)
and store it under the metadata key. -/
def putKeyMetadataMap (e : Env) (s : State) (p x : String) (md : Metadata) :
    Except Err State :=
  match e.marshalMd md with
  | Except.error er => Except.error er
  | Except.ok data =>
    Except.ok { s with ds := dsPut s.ds (keyToMetadataKey e p x) (DsVal.bytes data) }

/-- Engine method `getKeyMetadataMap`: read and unmarshal the metadata row,
returning `metadata.Default.New()` alongside the error when the row is
missing or does not decode. -/
def getKeyMetadataMap (e : Env) (s : State) (p x : String) : Metadata × Option Err :=
  match dsGet s.ds (keyToMetadataKey e p x) with
  | none => (defaultMetadata, some Err.notFound)
  | some (DsVal.bytes b) =>
    match e.unmarshalMd b with
    | Except.error er => (defaultMetadata, some er)
    | Except.ok m => (m, none)
  | some _ => (defaultMetadata, some (Err.other "metadata decode"))

/-- Engine method `deleteKeyMetadataMap`: delete the metadata row. -/
def deleteKeyMetadataMap (e : Env) (s : State) (p x : String) : State :=
  { s with ds := dsDelete s.ds (keyToMetadataKey e p x) }

/-- Engine method `PublishLocal`: validate the advertisement, store it in the
link system (yielding its CID), then update the latest-ad pointer. Every
error leaves the state as received and pairs with `cid.Undef` in Go. -/
def PublishLocal (e : Env) (s : State) (adv : Adv) : Except Err Cid × State :=
  match e.validate adv with
  | some er => (Except.error er, s)
  | none =>
    match e.store adv with
    | Except.error _ => (Except.error (Err.other "cannot generate advertisement link"), s)
    | Except.ok c =>
      (Except.ok c, { ds := putLatestAdv s.ds c, blocks := (c, adv) :: s.blocks })

/-- Engine method `Publish`: publish locally first; on success announce the
new head via the publisher when one is configured — using
`UpdateRootWithAddrs` when HTTP announce addresses are configured and the
publisher kind is HTTP, `UpdateRoot` otherwise. The announce result is
computed and discarded: a failure to announce is logged but is not an error,
since publishing locally worked. -/
def Publish (e : Env) (s : State) (adv : Adv) : Except Err Cid × State :=
  match PublishLocal e s adv with
  | (Except.error _, s1) =>
    (Except.error (Err.other "failed to publish advertisement locally"), s1)
  | (Except.ok c, s1) =>
    match e.publisher with
    | none => (Except.ok c, s1)
    | some pub =>
      let _announceResult :=
        if e.pubHttpAnnounceAddrs ≠ [] ∧ e.pubKind = PubKind.http then
          pub.updateRootWithAddrs c e.pubHttpAnnounceAddrs
        else
          pub.updateRoot c
      (Except.ok c, s1)

/-- Engine method `latestAdToPublish`: with no publisher, skip and return
`(cid.Undef, nil)`; otherwise read the latest advertisement CID (which is
also `(cid.Undef, nil)` when nothing was published yet). -/
def latestAdToPublish (e : Env) (s : State) : Except Err Cid :=
  match e.publisher with
  | none => Except.ok Cid.undef
  | some _ =>
    match getLatestAdCid s.ds with
    | Except.error _ => Except.error (Err.other "failed to get latest advertisement cid")
    | Except.ok c => Except.ok c

/-- Outcome of `PublishLatest`: a normal return `(adCid, err)` — modelled by
`ok` and `err` — or `fault`, the nil-interface method-dispatch panic that Go
raises when `e.publisher.UpdateRoot` is invoked while `e.publisher` is nil. -/
inductive PubOutcome
| ok (c : Cid)
| err (c : Cid) (er : Err)
| fault
deriving DecidableEq, Repr

/-- Engine method `PublishLatest`: get the CID to publish, then
unconditionally invoke `e.publisher.UpdateRoot` on it. There is no nil check
on the publisher between the two steps, so when no publisher is configured
the call faults (nil-interface dispatch) instead of returning. -/
def PublishLatest (e : Env) (s : State) : PubOutcome :=
  match latestAdToPublish e s with
  | Except.error er => PubOutcome.err Cid.undef er
  | Except.ok adCid =>
    match e.publisher with
    | none => PubOutcome.fault
    | some pub =>
      match pub.updateRoot adCid with
      | Except.error er => PubOutcome.err adCid er
      | Except.ok _ => PubOutcome.ok adCid

/-- The advertisement literal assembled at the end of `publishAdvForIndex`:
provider string, addresses, chosen entries link, context ID, marshalled
metadata bytes, removal flag, and `PreviousID` attached exactly when the
latest-ad CID read beforehand is defined. -/
def mkAdv (p : String) (addrs : List String) (x : String) (mdBytes : List Nat)
    (cidsLnk : Cid) (isRm : Bool) (prev : Cid) : Adv :=
  { provider := p, addresses := addrs, entries := cidsLnk, contextID := x,
    metadata := mdBytes, isRm := isRm,
    previousID := if prev = Cid.undef then none else some prev }

/-- The common tail of `publishAdvForIndex` (lines 566-603): marshal the
metadata, assemble the advertisement, read the latest head and attach it as
`PreviousID` when defined, sign, and hand off to `Publish`. -/
def finishAdv (e : Env) (s : State) (p : String) (addrs : List String) (x : String)
    (md : Metadata) (cidsLnk : Cid) (isRm : Bool) : Except Err Cid × State :=
  match e.marshalMd md with
  | Except.error er => (Except.error er, s)
  | Except.ok mdBytes =>
    match getLatestAdCid s.ds with
    | Except.error _ => (Except.error (Err.other "could not get latest advertisement"), s)
    | Except.ok prevAdvID =>
      match e.sign (mkAdv p addrs x mdBytes cidsLnk isRm prevAdvID) with
      | some er => (Except.error er, s)
      | none => Publish e s (mkAdv p addrs x mdBytes cidsLnk isRm prevAdvID)

/-- The wrapper around `getKeyCidMap` at the top of `publishAdvForIndex`:
`datastore.ErrNotFound` is tolerated, leaving the entries CID at `cid.Undef`;
any other lookup error is returned wrapped. -/
def getKeyCidMapOr (e : Env) (s : State) (p x : String) : Except Err Cid :=
  match getKeyCidMap e s p x with
  | Except.error er =>
    if er = Err.notFound then Except.ok Cid.undef
    else Except.error (Err.other "cound not not get entries cid")
  | Except.ok c => Except.ok c

/-- The non-removal entries-link selection of `publishAdvForIndex` (lines
478-530), split out for proof structure: with no previously-published ad for
this context ID, require the lister, chunk the multihashes (substituting the
`NoEntries` sentinel when chunking yields no link) and store the
forward+reverse index rows; with an existing entries CID, load the previous
metadata and fail `AlreadyAdvertised` when the new metadata equals it,
otherwise reuse the existing entries link. -/
def notRmEntries (e : Env) (s : State) (p x : String) (md : Metadata) (c : Cid) :
    Except Err (Cid × State) :=
  if c = Cid.undef then
    match e.mhLister with
    | none => Except.error Err.noMultihashLister
    | some lister =>
      match lister p x with
      | Except.error er => Except.error er
      | Except.ok mhIter =>
        match e.chunk mhIter with
        | Except.error _ => Except.error (Err.other "could not generate entries list")
        | Except.ok lnk =>
          Except.ok (lnk.getD noEntriesCid, putKeyCidMap e s p x (lnk.getD noEntriesCid))
  else
    match (getKeyMetadataMap e s p x).2 with
    | some er =>
      if er = Err.notFound then
        if md = (getKeyMetadataMap e s p x).1 then Except.error Err.alreadyAdvertised
        else Except.ok (c, s)
      else Except.error (Err.other "could not get metadata")
    | none =>
      if md = (getKeyMetadataMap e s p x).1 then Except.error Err.alreadyAdvertised
      else Except.ok (c, s)

/-- Engine method `publishAdvForIndex`, the single write path used by
`NotifyPut` and `NotifyRemove`: look up the existing entries CID for the
(provider, contextID) pair; for a put, select the entries link (see
`notRmEntries`) and overwrite the metadata row; for a removal, fail
`ContextIDNotFound` when no entries CID exists, otherwise delete the forward
row, both reverse rows and the metadata row, and advertise the `NoEntries`
sentinel with a fresh valid empty metadata; finally assemble, chain, sign and
publish the advertisement (see `finishAdv`). -/
def publishAdvForIndex (e : Env) (s : State) (p : String) (addrs : List String)
    (x : String) (md : Metadata) (isRm : Bool) : Except Err Cid × State :=
  match getKeyCidMapOr e s p x with
  | Except.error er => (Except.error er, s)
  | Except.ok c =>
    if isRm then
      if c = Cid.undef then (Except.error Err.contextIDNotFound, s)
      else
        finishAdv e
          (deleteKeyMetadataMap e (deleteCidKeyMap (deleteKeyCidMap e s p x) c) p x)
          p addrs x defaultMetadata noEntriesCid true
    else
      match notRmEntries e s p x md c with
      | Except.error er => (Except.error er, s)
      | Except.ok (cidsLnk, s1) =>
        match putKeyMetadataMap e s1 p x md with
        | Except.error _ => (Except.error (Err.other "failed to write metadata mapping"), s1)
        | Except.ok s2 => finishAdv e s2 p addrs x md cidsLnk false

/-- Provider address info (`peer.AddrInfo`). -/
structure AddrInfo where
  id : String
  addrs : List String

/-- Engine method `NotifyPut`: use the override provider when given, the
default identity and addresses otherwise, and publish a non-removal
advertisement. -/
def NotifyPut (e : Env) (s : State) (prov : Option AddrInfo) (x : String)
    (md : Metadata) : Except Err Cid × State :=
  match prov with
  | none => publishAdvForIndex e s e.provider e.providerAddrs x md false
  | some a => publishAdvForIndex e s a.id a.addrs x md false

/-- Engine method `NotifyRemove`: substitute the default provider for an
empty identity and publish a removal advertisement with zero metadata. -/
def NotifyRemove (e : Env) (s : State) (prov : String) (x : String) :
    Except Err Cid × State :=
  let p := if prov = "" then e.provider else prov
  publishAdvForIndex e s p [] x defaultMetadata true

/-- A mutex operation, for recording which locks a function body
acquires and releases. -/
inductive LockOp
| acquire (l : String)
| release (l : String)
deriving DecidableEq, Repr

/-- Mutex operations performed by `RegisterMultihashLister`: it locks and
unlocks the engine's only mutex `cblk` (source lines 367-368). -/
def registerMultihashListerLockOps : List LockOp :=
  [LockOp.acquire "cblk", LockOp.release "cblk"]

/-- Mutex operations performed by `publishAdvForIndex` (source lines
462-604): none — the function body contains no lock or unlock. -/
def publishAdvForIndexLockOps : List LockOp := []

/-- Mutex operations performed by `Publish` (source lines 226-263): none. -/
def publishLockOps : List LockOp := []

/-- Mutex operations performed by `PublishLocal` (source lines 194-218):
none. -/
def publishLocalLockOps : List LockOp := []

/-- Mutex operations performed by `NotifyPut` (source lines 381-391): none of
its own, plus those of `publishAdvForIndex`. -/
def notifyPutLockOps : List LockOp := publishAdvForIndexLockOps

/-- Mutex operations performed by `NotifyRemove` (source lines 400-406):
none of its own, plus those of `publishAdvForIndex`. -/
def notifyRemoveLockOps : List LockOp := publishAdvForIndexLockOps

/-- The serialisation property claimed for the write path: every write-path
function acquires some lock. -/
def writePathSerialised : Prop :=
  (∃ l, LockOp.acquire l ∈ publishLockOps) ∧
  (∃ l, LockOp.acquire l ∈ publishLocalLockOps) ∧
  (∃ l, LockOp.acquire l ∈ notifyPutLockOps) ∧
  (∃ l, LockOp.acquire l ∈ notifyRemoveLockOps) ∧
  (∃ l, LockOp.acquire l ∈ publishAdvForIndexLockOps)

/-- An environment whose serialization, signing, validation and store
oracles all succeed: the failure-free tail of the publish pipeline. -/
def HonestTail (e : Env) : Prop :=
  (∀ m, ∃ b, e.marshalMd m = Except.ok b) ∧
  (∀ adv, e.sign adv = none) ∧
  (∀ adv, e.validate adv = none) ∧
  (∀ adv, ∃ c, e.store adv = Except.ok c)

/-- A concrete publisher whose announcements succeed. -/
def pubW : Publisher :=
  Publisher.mk (fun _ => Except.ok ()) (fun _ _ => Except.ok ())

/-- A concrete publisher whose announcements fail. -/
def pubFail : Publisher :=
  Publisher.mk (fun _ => Except.error (Err.other "transport"))
    (fun _ _ => Except.error (Err.other "transport"))

/-- A concrete environment for evaluating the embedding: default provider
"pv", a lister yielding one multihash except for context "e" where it yields
none, a chunker returning a link exactly for nonempty iterators, identity
serialization, always-passing signer and validator, a store deriving the CID
from the context length, and a succeeding publisher. -/
def envW : Env :=
  Env.mk "pv" ["a1"]
    (some (fun _ ctx => if ctx = "e" then Except.ok [] else Except.ok [[1]]))
    (fun it => if it = [] then Except.ok none else Except.ok (some (Cid.mk 7)))
    (fun m => Except.ok m) (fun b => Except.ok b) (fun _ => none) (fun _ => none)
    (fun adv => Except.ok (Cid.mk (90 + adv.contextID.length)))
    (some pubW) PubKind.http []

/-- `envW` with no registered multihash lister. -/
def envNoLister : Env := { envW with mhLister := none }

/-- `envW` with a failing publisher. -/
def envFailPub : Env := { envW with publisher := some pubFail }

/-- `envW` with no publisher configured (publisher kind none). -/
def envNoPub : Env := { envW with publisher := none, pubKind := PubKind.noPub }

/-- `envW` whose signer always fails. -/
def envSignFail : Env := { envW with sign := fun _ => some (Err.other "sig") }

/-- The empty engine state. -/
def stEmpty : State := State.mk [] []

/-- A state holding, for the default provider and context "x", a forward row
(entries CID 7), a metadata row (bytes [5]), and both reverse rows. -/
def stRow : State :=
  State.mk [(Key.keyCid none "x", DsVal.cidB (Cid.mk 7)),
            (Key.keyMD none "x", DsVal.bytes [5]),
            (Key.cidKey (Cid.mk 7), DsVal.ctxOnly "x"),
            (Key.cidProvAndKey (Cid.mk 7), DsVal.pc "pv" "x")] []

/-- A state holding only a new-style reverse row with a nonempty provider. -/
def stNew : State :=
  State.mk [(Key.cidProvAndKey (Cid.mk 8), DsVal.pc "q1" "x")] []

/-- A state holding only a new-style reverse row with an empty provider. -/
def stNewEmpty : State :=
  State.mk [(Key.cidProvAndKey (Cid.mk 9), DsVal.pc "" "x")] []

/-- Modelled from the spec: the provider client's advertisement entries
reader (package `cmd/provider/internal`, absent from the sources; only its
caller `doGetAdvertisements` is present). An entry-chunk chain is a list of
chunks, each a list of multihashes. `Drain` returns every multihash reachable
within the recursion-depth bound, together with `datastore.ErrNotFound` as an
in-band truncation signal when the chain continues beyond the limit. -/
def drainEntries (chain : List (List Mh)) (depth : Nat) : List Mh × Option Err :=
  ((chain.take depth).flatten,
   if depth < chain.length then some Err.notFound else none)

/-- Modelled from the spec: `ChunkCount` reports the number of chunks
traversed, bounded by the recursion depth. -/
def chunkCount (chain : List (List Mh)) (depth : Nat) : Nat :=
  min chain.length depth

/-- Output printed by the `list` command: entries, whether the truncation
note was shown, the chunk count and the total count. -/
structure AdOutput where
  entries : List Mh
  truncated : Bool
  chunkCnt : Nat
  totalCount : Nat
deriving DecidableEq, Repr

/-- The entries handling of `doGetAdvertisements` (cmd source lines 111-131):
drain the entries; when the drain error is `datastore.ErrNotFound`, note the
truncation and continue to print chunk and total counts; any other non-nil
error is returned; otherwise print without the note. -/
def doGetAdvertisements (chain : List (List Mh)) (depth : Nat) :
    Except Err AdOutput :=
  let de := drainEntries chain depth
  match de.2 with
  | some Err.notFound =>
    Except.ok { entries := de.1, truncated := true,
                chunkCnt := chunkCount chain depth, totalCount := de.1.length }
  | some er => Except.error er
  | none =>
    Except.ok { entries := de.1, truncated := false,
                chunkCnt := chunkCount chain depth, totalCount := de.1.length }

/-- Reading a key just written returns the written value. -/
theorem dsGet_put_self (ds : DS) (k : Key) (v : DsVal) :
    dsGet (dsPut ds k v) k = some v := by
  simp [dsGet, dsPut]

/-- Writing one key leaves reads of any other key unchanged. -/
theorem dsGet_put_ne (ds : DS) (k : Key) (v : DsVal) (k' : Key) (h : k' ≠ k) :
    dsGet (dsPut ds k v) k' = dsGet ds k' := by
  unfold dsGet dsPut
  rw [List.find?_cons_of_neg]
  simp only [decide_eq_true_eq]
  exact fun hh => h hh.symm

/-- Reading after a deletion: nothing for the deleted key, unchanged for any
other key. -/
theorem dsGet_del (ds : DS) (k k' : Key) :
    dsGet (dsDelete ds k) k' = if k' = k then none else dsGet ds k' := by
  induction ds with
  | nil => simp [dsGet, dsDelete]
  | cons hd tl ih =>
    by_cases hk : hd.1 = k
    · rw [show dsDelete (hd :: tl) k = dsDelete tl k from by
        simp [dsDelete, List.filter_cons, hk]]
      rw [ih]
      by_cases hkk : k' = k
      · simp [hkk]
      · have hne : ¬ (hd.1 = k') := fun hh => hkk (by rw [← hh, hk])
        simp [hkk, dsGet, hne]
    · rw [show dsDelete (hd :: tl) k = hd :: dsDelete tl k from by
        simp [dsDelete, List.filter_cons, hk]]
      by_cases hd1 : hd.1 = k'
      · have hkk : ¬ k' = k := fun hh => hk (by rw [hd1, hh])
        simp [dsGet, hd1, hkk]
      · have hskip : dsGet (hd :: dsDelete tl k) k' = dsGet (dsDelete tl k) k' := by
          simp [dsGet, hd1]
        rw [hskip, ih]
        by_cases hkk : k' = k <;> simp [dsGet, hkk, hd1]

/-- Reading a deleted key returns nothing. -/
theorem dsGet_del_self (ds : DS) (k : Key) : dsGet (dsDelete ds k) k = none := by
  rw [dsGet_del]
  simp

/-- Deleting one key leaves reads of any other key unchanged. -/
theorem dsGet_del_ne (ds : DS) (k : Key) (k' : Key) (h : k' ≠ k) :
    dsGet (dsDelete ds k) k' = dsGet ds k' := by
  rw [dsGet_del]
  simp [h]

/-- The latest-ad key differs from every forward-map key. -/
theorem latest_ne_keyToCidKey (e : Env) (p x : String) :
    Key.latestAdv ≠ keyToCidKey e p x := by
  unfold keyToCidKey
  split <;> simp

/-- The latest-ad key differs from every metadata-map key. -/
theorem latest_ne_keyToMetadataKey (e : Env) (p x : String) :
    Key.latestAdv ≠ keyToMetadataKey e p x := by
  unfold keyToMetadataKey
  split <;> simp

/-- The latest-ad key differs from every legacy reverse-map key. -/
theorem latest_ne_cidToKeyKey (c : Cid) : Key.latestAdv ≠ cidToKeyKey c := by
  simp [cidToKeyKey]

/-- The latest-ad key differs from every new reverse-map key. -/
theorem latest_ne_cidToProviderAndKeyKey (c : Cid) :
    Key.latestAdv ≠ cidToProviderAndKeyKey c := by
  simp [cidToProviderAndKeyKey]

/-- Writing any non-latest key leaves the latest-ad pointer unchanged. -/
theorem getLatestAdCid_put (ds : DS) (k : Key) (v : DsVal)
    (h : Key.latestAdv ≠ k) :
    getLatestAdCid (dsPut ds k v) = getLatestAdCid ds := by
  unfold getLatestAdCid
  rw [dsGet_put_ne ds k v Key.latestAdv h]

/-- Deleting any non-latest key leaves the latest-ad pointer unchanged. -/
theorem getLatestAdCid_del (ds : DS) (k : Key) (h : Key.latestAdv ≠ k) :
    getLatestAdCid (dsDelete ds k) = getLatestAdCid ds := by
  unfold getLatestAdCid
  rw [dsGet_del_ne ds k Key.latestAdv h]

/-- The latest-ad pointer reads back the CID just stored by `putLatestAdv`. -/
theorem getLatestAdCid_putLatestAdv (ds : DS) (c : Cid) :
    getLatestAdCid (putLatestAdv ds c) = Except.ok c := by
  unfold getLatestAdCid putLatestAdv
  rw [dsGet_put_self]
  rfl

/-- A successful `PublishLocal` means validation and store succeeded, the
block was written under the returned CID, and the latest-ad pointer was
advanced to it. -/
theorem PublishLocal_ok {e : Env} {s : State} {adv : Adv} {c : Cid} {s1 : State}
    (h : PublishLocal e s adv = (Except.ok c, s1)) :
    e.validate adv = none ∧ e.store adv = Except.ok c ∧
      s1 = { ds := putLatestAdv s.ds c, blocks := (c, adv) :: s.blocks } := by
  unfold PublishLocal at h
  split at h
  · simp at h
  · split at h
    · simp at h
    · next c0 heq =>
      obtain ⟨hc, hs⟩ := Prod.mk.injEq .. ▸ h
      cases hc
      exact ⟨by assumption, heq, hs.symm⟩

/-- A successful `Publish` coincides with a successful `PublishLocal`: the
announce step never changes the result or the state. -/
theorem Publish_ok {e : Env} {s : State} {adv : Adv} {c : Cid} {s1 : State}
    (h : Publish e s adv = (Except.ok c, s1)) :
    e.validate adv = none ∧ e.store adv = Except.ok c ∧
      s1 = { ds := putLatestAdv s.ds c, blocks := (c, adv) :: s.blocks } := by
  unfold Publish at h
  split at h
  · simp at h
  · next c0 s0 heq =>
    split at h <;> simp only [Prod.mk.injEq, Except.ok.injEq] at h <;>
      exact h.1 ▸ h.2 ▸ PublishLocal_ok heq

/-- A successful `finishAdv` pins down every component: the marshalled
metadata, the previous head read from the incoming state, a passing
signature, validation and store, and the resulting state shape. -/
theorem finishAdv_ok {e : Env} {s : State} {p : String} {addrs : List String}
    {x : String} {md : Metadata} {cidsLnk : Cid} {isRm : Bool} {c : Cid} {s1 : State}
    (h : finishAdv e s p addrs x md cidsLnk isRm = (Except.ok c, s1)) :
    ∃ mdBytes prev,
      e.marshalMd md = Except.ok mdBytes ∧
      getLatestAdCid s.ds = Except.ok prev ∧
      e.sign (mkAdv p addrs x mdBytes cidsLnk isRm prev) = none ∧
      e.validate (mkAdv p addrs x mdBytes cidsLnk isRm prev) = none ∧
      e.store (mkAdv p addrs x mdBytes cidsLnk isRm prev) = Except.ok c ∧
      s1 = { ds := putLatestAdv s.ds c,
             blocks := (c, mkAdv p addrs x mdBytes cidsLnk isRm prev) :: s.blocks } := by
  unfold finishAdv at h
  split at h
  · simp at h
  · next mdBytes heqm =>
    split at h
    · simp at h
    · next prev heql =>
      split at h
      · simp at h
      · next heqs =>
        obtain ⟨hv, hst, hs1⟩ := Publish_ok h
        exact ⟨mdBytes, prev, heqm, heql, heqs, hv, hst, hs1⟩

/-- The newest stored block is found by a lookup of its CID. -/
theorem lookupBlock_cons_self (ds : DS) (c : Cid) (adv : Adv)
    (b : List (Cid × Adv)) :
    lookupBlock { ds := ds, blocks := (c, adv) :: b } c = some adv := by
  simp [lookupBlock]

/-- `putKeyCidMap` writes no key that the latest-ad pointer reads. -/
theorem putKeyCidMap_latest (e : Env) (s : State) (p x : String) (c : Cid) :
    getLatestAdCid (putKeyCidMap e s p x c).ds = getLatestAdCid s.ds := by
  show getLatestAdCid
      (dsPut (dsPut s.ds (keyToCidKey e p x) (DsVal.cidB c))
        (cidToProviderAndKeyKey c) (DsVal.pc p x))
    = getLatestAdCid s.ds
  rw [getLatestAdCid_put _ _ _ (latest_ne_cidToProviderAndKeyKey c),
      getLatestAdCid_put _ _ _ (latest_ne_keyToCidKey e p x)]

/-- `putKeyCidMap` leaves the block store unchanged. -/
theorem putKeyCidMap_blocks (e : Env) (s : State) (p x : String) (c : Cid) :
    (putKeyCidMap e s p x c).blocks = s.blocks := rfl

/-- A successful `putKeyMetadataMap` leaves the latest-ad pointer and the
block store unchanged. -/
theorem putKeyMetadataMap_ok {e : Env} {s : State} {p x : String}
    {md : Metadata} {s2 : State}
    (h : putKeyMetadataMap e s p x md = Except.ok s2) :
    getLatestAdCid s2.ds = getLatestAdCid s.ds ∧ s2.blocks = s.blocks := by
  unfold putKeyMetadataMap at h
  split at h
  · simp at h
  · next data heq =>
    injection h with h2
    subst h2
    exact ⟨getLatestAdCid_put _ _ _ (latest_ne_keyToMetadataKey e p x), rfl⟩

/-- The three removal deletions leave the latest-ad pointer unchanged. -/
theorem rmDeletes_latest (e : Env) (s : State) (p x : String) (c : Cid) :
    getLatestAdCid
      (deleteKeyMetadataMap e (deleteCidKeyMap (deleteKeyCidMap e s p x) c) p x).ds
      = getLatestAdCid s.ds := by
  show getLatestAdCid
      (dsDelete (dsDelete (dsDelete (dsDelete s.ds (keyToCidKey e p x))
        (cidToProviderAndKeyKey c)) (cidToKeyKey c)) (keyToMetadataKey e p x))
    = getLatestAdCid s.ds
  rw [getLatestAdCid_del _ _ (latest_ne_keyToMetadataKey e p x),
      getLatestAdCid_del _ _ (latest_ne_cidToKeyKey c),
      getLatestAdCid_del _ _ (latest_ne_cidToProviderAndKeyKey c),
      getLatestAdCid_del _ _ (latest_ne_keyToCidKey e p x)]

/-- The three removal deletions leave the block store unchanged. -/
theorem rmDeletes_blocks (e : Env) (s : State) (p x : String) (c : Cid) :
    (deleteKeyMetadataMap e (deleteCidKeyMap (deleteKeyCidMap e s p x) c) p x).blocks
      = s.blocks := rfl

/-- A successful entries-link selection leaves the latest-ad pointer and the
block store unchanged. -/
theorem notRmEntries_ok {e : Env} {s : State} {p x : String} {md : Metadata}
    {c0 lnk : Cid} {s1 : State}
    (h : notRmEntries e s p x md c0 = Except.ok (lnk, s1)) :
    getLatestAdCid s1.ds = getLatestAdCid s.ds ∧ s1.blocks = s.blocks := by
  unfold notRmEntries at h
  split at h
  · split at h
    · simp at h
    · split at h
      · simp at h
      · split at h
        · simp at h
        · injection h with h2
          obtain ⟨h3, h4⟩ := Prod.mk.injEq .. ▸ h2
          subst h4
          exact ⟨putKeyCidMap_latest e s p x _, putKeyCidMap_blocks e s p x _⟩
  · split at h
    · split at h
      · split at h
        · simp at h
        · injection h with h2
          obtain ⟨h3, h4⟩ := Prod.mk.injEq .. ▸ h2
          subst h4
          exact ⟨rfl, rfl⟩
      · simp at h
    · split at h
      · simp at h
      · injection h with h2
        obtain ⟨h3, h4⟩ := Prod.mk.injEq .. ▸ h2
        subst h4
        exact ⟨rfl, rfl⟩

/-- The shape of every successful `publishAdvForIndex` call: some metadata
bytes, some entries link and the previous head read from the incoming state
determine the stored advertisement; the new head pointer is exactly the
returned CID; and the new block store is the old one with the advertisement
prepended under the returned CID. -/
theorem publishAdvForIndex_ok {e : Env} {s : State} {p : String}
    {a : List String} {x : String} {md : Metadata} {rm : Bool} {c : Cid}
    {s1 : State}
    (h : publishAdvForIndex e s p a x md rm = (Except.ok c, s1)) :
    ∃ mdBytes lnkUsed prev,
      getLatestAdCid s.ds = Except.ok prev ∧
      getLatestAdCid s1.ds = Except.ok c ∧
      s1.blocks = (c, mkAdv p a x mdBytes lnkUsed rm prev) :: s.blocks := by
  unfold publishAdvForIndex at h
  split at h
  · simp at h
  · next c0 heq0 =>
    split at h
    · next hrm =>
      split at h
      · simp at h
      · obtain ⟨mdB, prev, hm, hl, hsg, hv, hst, hs1⟩ := finishAdv_ok h
        subst hrm
        refine ⟨mdB, noEntriesCid, prev, ?_, ?_, ?_⟩
        · rw [← rmDeletes_latest e s p x c0]
          exact hl
        · rw [hs1]
          exact getLatestAdCid_putLatestAdv _ c
        · rw [hs1]
          rw [show ∀ dsv bl, ({ ds := dsv, blocks := bl } : State).blocks = bl from
            fun _ _ => rfl]
          rw [rmDeletes_blocks e s p x c0]
    · next hrm =>
      have hrm' : rm = false := by
        cases rm
        · rfl
        · exact absurd rfl hrm
      subst hrm'
      split at h
      · simp at h
      · next cidsLnk sMid heqn =>
        split at h
        · simp at h
        · next s2 heqp =>
          obtain ⟨mdB, prev, hm, hl, hsg, hv, hst, hs1⟩ := finishAdv_ok h
          obtain ⟨hl2, hb2⟩ := putKeyMetadataMap_ok heqp
          obtain ⟨hl3, hb3⟩ := notRmEntries_ok heqn
          refine ⟨mdB, cidsLnk, prev, ?_, ?_, ?_⟩
          · rw [← hl3, ← hl2]
            exact hl
          · rw [hs1]
            exact getLatestAdCid_putLatestAdv _ c
          · rw [hs1]
            rw [show ∀ dsv bl, ({ ds := dsv, blocks := bl } : State).blocks = bl from
              fun _ _ => rfl]
            rw [hb2, hb3]

/-- C1: for every call to publishAdvForIndex (via NotifyPut/NotifyRemove),
the error returned when nothing should change is dictated by the pair
(existingEntriesCid, isRm): with no existing entries CID, isRm = false and no
registered lister it fails NoMultihashLister; with an existing entries CID,
isRm = false and metadata equal to the stored metadata it fails
AlreadyAdvertised (in Go paired with cid.Undef, as every error return of
this function is); with no existing entries CID and isRm = true it fails
ContextIDNotFound. In each case the state is unchanged. -/
theorem C1_noop_error_cases :
    (∀ (e : Env) (s : State) (p : String) (a : List String) (x : String)
       (md : Metadata),
       dsGet s.ds (keyToCidKey e p x) = none → e.mhLister = none →
       publishAdvForIndex e s p a x md false
         = (Except.error Err.noMultihashLister, s))
  ∧ (∀ (e : Env) (s : State) (p : String) (a : List String) (x : String)
       (md : Metadata) (mb : List Nat) (c0 : Cid),
       c0 ≠ Cid.undef →
       dsGet s.ds (keyToCidKey e p x) = some (DsVal.cidB c0) →
       dsGet s.ds (keyToMetadataKey e p x) = some (DsVal.bytes mb) →
       e.unmarshalMd mb = Except.ok md →
       publishAdvForIndex e s p a x md false
         = (Except.error Err.alreadyAdvertised, s))
  ∧ (∀ (e : Env) (s : State) (p : String) (a : List String) (x : String)
       (md : Metadata),
       dsGet s.ds (keyToCidKey e p x) = none →
       publishAdvForIndex e s p a x md true
         = (Except.error Err.contextIDNotFound, s)) := by
  refine ⟨?_, ?_, ?_⟩
  · intro e s p a x md h1 h2
    simp [publishAdvForIndex, getKeyCidMapOr, getKeyCidMap, h1, notRmEntries, h2]
  · intro e s p a x md mb c0 hne h1 h2 h3
    simp [publishAdvForIndex, getKeyCidMapOr, getKeyCidMap, h1, cidFromBytes,
      notRmEntries, hne, getKeyMetadataMap, h2, h3]
  · intro e s p a x md h1
    simp [publishAdvForIndex, getKeyCidMapOr, getKeyCidMap, h1]

/-- C2 counterexample: the claim that the write path (Publish, PublishLocal,
NotifyPut, NotifyRemove, via publishAdvForIndex) is serialised by a single
write lock is false on the code: none of these function bodies contains any
lock acquisition — the engine's only mutex, cblk, is locked solely by
RegisterMultihashLister. -/
theorem C2_writePath_not_locked : ¬ writePathSerialised := by
  intro hws
  obtain ⟨⟨l, hl⟩, _⟩ := hws
  simp [publishLockOps] at hl

/-- C2 (amended): the write path performs no locking at all — the engine's
single mutex cblk guards only RegisterMultihashLister — so the engine itself
does not serialise concurrent notifications; in the sequential semantics a
successful publishAdvForIndex call still advances the head pointer to
exactly the CID it returns. -/
theorem C2_writePath_lockFree_headAdvance {e : Env} {s : State} {p : String}
    {a : List String} {x : String} {md : Metadata} {rm : Bool} {c : Cid}
    {s1 : State}
    (h : publishAdvForIndex e s p a x md rm = (Except.ok c, s1)) :
    publishAdvForIndexLockOps = [] ∧ notifyPutLockOps = [] ∧
    notifyRemoveLockOps = [] ∧ publishLockOps = [] ∧
    publishLocalLockOps = [] ∧
    registerMultihashListerLockOps
      = [LockOp.acquire "cblk", LockOp.release "cblk"] ∧
    getLatestAdCid s1.ds = Except.ok c := by
  obtain ⟨mdB, lnk, prev, hprev, hlat, hblocks⟩ := publishAdvForIndex_ok h
  exact ⟨rfl, rfl, rfl, rfl, rfl, rfl, hlat⟩

/-- C3: for every advertisement produced by a successful publish other than
the first, its PreviousID equals the latest-head CID read immediately before
signing, which is the CID returned by the immediately preceding successful
publish; for the genesis advertisement (latest head undefined beforehand)
the PreviousID field is absent. -/
theorem C3_previousID_chain {e1 e2 : Env} {s0 s1 s2 : State}
    {p1 p2 : String} {a1 a2 : List String} {x1 x2 : String}
    {m1 m2 : Metadata} {r1 r2 : Bool} {c1 c2 : Cid}
    (h1 : publishAdvForIndex e1 s0 p1 a1 x1 m1 r1 = (Except.ok c1, s1))
    (h2 : publishAdvForIndex e2 s1 p2 a2 x2 m2 r2 = (Except.ok c2, s2))
    (hne : c1 ≠ Cid.undef) :
    (getLatestAdCid s0.ds = Except.ok Cid.undef →
      ∃ adv1, lookupBlock s1 c1 = some adv1 ∧ adv1.previousID = none)
  ∧ (∃ adv2, lookupBlock s2 c2 = some adv2 ∧ adv2.previousID = some c1) := by
  obtain ⟨mdB1, lnk1, prev1, hp1, hl1, hb1⟩ := publishAdvForIndex_ok h1
  obtain ⟨mdB2, lnk2, prev2, hp2, hl2, hb2⟩ := publishAdvForIndex_ok h2
  constructor
  · intro hg
    refine ⟨mkAdv p1 a1 x1 mdB1 lnk1 r1 prev1, ?_, ?_⟩
    · simp [lookupBlock, hb1]
    · have hpu : prev1 = Cid.undef := by
        rw [hg] at hp1
        injection hp1 with hh
        exact hh.symm
      simp [mkAdv, hpu]
  · have hpc : prev2 = c1 := by
      rw [hl1] at hp2
      injection hp2 with hh
      exact hh.symm
    refine ⟨mkAdv p2 a2 x2 mdB2 lnk2 r2 prev2, ?_, ?_⟩
    · simp [lookupBlock, hb2]
    · simp [mkAdv, hpc, hne]

/-- Constructor normal form of a forward-map key. -/
theorem keyToCidKey_eq (e : Env) (p x : String) :
    keyToCidKey e p x
      = Key.keyCid (if p = e.provider then none else some p) x := by
  unfold keyToCidKey
  split <;> rfl

/-- Constructor normal form of a metadata-map key. -/
theorem keyToMetadataKey_eq (e : Env) (p x : String) :
    keyToMetadataKey e p x
      = Key.keyMD (if p = e.provider then none else some p) x := by
  unfold keyToMetadataKey
  split <;> rfl

/-- After the three removal deletions, the forward row, both reverse rows
and the metadata row of the removed (provider, context, entries CID) triple
are all gone. -/
theorem rmDeletes_rows (e : Env) (s : State) (p x : String) (c0 : Cid) :
    dsGet (deleteKeyMetadataMap e
        (deleteCidKeyMap (deleteKeyCidMap e s p x) c0) p x).ds
        (keyToCidKey e p x) = none ∧
    dsGet (deleteKeyMetadataMap e
        (deleteCidKeyMap (deleteKeyCidMap e s p x) c0) p x).ds
        (cidToKeyKey c0) = none ∧
    dsGet (deleteKeyMetadataMap e
        (deleteCidKeyMap (deleteKeyCidMap e s p x) c0) p x).ds
        (cidToProviderAndKeyKey c0) = none ∧
    dsGet (deleteKeyMetadataMap e
        (deleteCidKeyMap (deleteKeyCidMap e s p x) c0) p x).ds
        (keyToMetadataKey e p x) = none := by
  show dsGet (dsDelete (dsDelete (dsDelete (dsDelete s.ds (keyToCidKey e p x))
        (cidToProviderAndKeyKey c0)) (cidToKeyKey c0)) (keyToMetadataKey e p x))
        (keyToCidKey e p x) = none ∧
      dsGet (dsDelete (dsDelete (dsDelete (dsDelete s.ds (keyToCidKey e p x))
        (cidToProviderAndKeyKey c0)) (cidToKeyKey c0)) (keyToMetadataKey e p x))
        (cidToKeyKey c0) = none ∧
      dsGet (dsDelete (dsDelete (dsDelete (dsDelete s.ds (keyToCidKey e p x))
        (cidToProviderAndKeyKey c0)) (cidToKeyKey c0)) (keyToMetadataKey e p x))
        (cidToProviderAndKeyKey c0) = none ∧
      dsGet (dsDelete (dsDelete (dsDelete (dsDelete s.ds (keyToCidKey e p x))
        (cidToProviderAndKeyKey c0)) (cidToKeyKey c0)) (keyToMetadataKey e p x))
        (keyToMetadataKey e p x) = none
  refine ⟨?_, ?_, ?_, ?_⟩
  · rw [dsGet_del_ne _ _ _ (by rw [keyToCidKey_eq, keyToMetadataKey_eq]; simp),
        dsGet_del_ne _ _ _ (by rw [keyToCidKey_eq]; simp [cidToKeyKey]),
        dsGet_del_ne _ _ _ (by rw [keyToCidKey_eq]; simp [cidToProviderAndKeyKey]),
        dsGet_del_self]
  · rw [dsGet_del_ne _ _ _ (by rw [keyToMetadataKey_eq]; simp [cidToKeyKey]),
        dsGet_del_self]
  · rw [dsGet_del_ne _ _ _
          (by rw [keyToMetadataKey_eq]; simp [cidToProviderAndKeyKey]),
        dsGet_del_ne _ _ _ (by simp [cidToKeyKey, cidToProviderAndKeyKey]),
        dsGet_del_self]
  · rw [dsGet_del_self]

/-- C4: for every removal publish (isRm = true) with an existing
forward-index entry, the engine deletes the forward row (keyToCid), both
reverse rows (legacy cidToKey and new cidToProviderAndKey) and the metadata
row, and the produced advertisement has Entries equal to the NoEntries
sentinel, IsRm = true, and the marshalling of a valid empty metadata. -/
theorem C4_removal_deletes_rows {e : Env} {s : State} {p : String}
    {a : List String} {x : String} {md : Metadata} {c0 c : Cid} {s1 : State}
    (h0 : dsGet s.ds (keyToCidKey e p x) = some (DsVal.cidB c0))
    (hne : c0 ≠ Cid.undef)
    (h : publishAdvForIndex e s p a x md true = (Except.ok c, s1)) :
    dsGet s1.ds (keyToCidKey e p x) = none ∧
    dsGet s1.ds (cidToKeyKey c0) = none ∧
    dsGet s1.ds (cidToProviderAndKeyKey c0) = none ∧
    dsGet s1.ds (keyToMetadataKey e p x) = none ∧
    ∃ adv mdB, lookupBlock s1 c = some adv ∧ adv.entries = noEntriesCid ∧
      adv.isRm = true ∧ e.marshalMd defaultMetadata = Except.ok mdB ∧
      adv.metadata = mdB := by
  have hg : getKeyCidMapOr e s p x = Except.ok c0 := by
    simp [getKeyCidMapOr, getKeyCidMap, h0, cidFromBytes]
  unfold publishAdvForIndex at h
  rw [hg] at h
  simp only [if_neg hne, if_pos rfl, ite_true] at h
  obtain ⟨mdB, prev, hm, hl, hsg, hv, hst, hs1⟩ := finishAdv_ok h
  obtain ⟨r1, r2, r3, r4⟩ := rmDeletes_rows e s p x c0
  have hds : s1.ds = putLatestAdv
      (deleteKeyMetadataMap e
        (deleteCidKeyMap (deleteKeyCidMap e s p x) c0) p x).ds c := by
    rw [hs1]
  refine ⟨?_, ?_, ?_, ?_,
    mkAdv p a x mdB noEntriesCid true prev, mdB, ?_, rfl, rfl, hm, rfl⟩
  · rw [hds, putLatestAdv,
      dsGet_put_ne _ _ _ _ (Ne.symm (latest_ne_keyToCidKey e p x))]
    exact r1
  · rw [hds, putLatestAdv,
      dsGet_put_ne _ _ _ _ (Ne.symm (latest_ne_cidToKeyKey c0))]
    exact r2
  · rw [hds, putLatestAdv,
      dsGet_put_ne _ _ _ _ (Ne.symm (latest_ne_cidToProviderAndKeyKey c0))]
    exact r3
  · rw [hds, putLatestAdv,
      dsGet_put_ne _ _ _ _ (Ne.symm (latest_ne_keyToMetadataKey e p x))]
    exact r4
  · rw [hs1]
    exact lookupBlock_cons_self _ _ _ _

/-- C5: for every call to Publish in which PublishLocal succeeds with CID c
but the subsequent announce via the publisher (UpdateRoot or
UpdateRootWithAddrs) fails, Publish still returns c with no error and the
same state: announce failures after a successful local publish are logged
and never propagated. -/
theorem C5_announce_failure_swallowed {e : Env} {s : State} {adv : Adv}
    {c : Cid} {s1 : State} {pub : Publisher} {er er' : Err}
    (h : PublishLocal e s adv = (Except.ok c, s1))
    (hp : e.publisher = some pub)
    (hfail : pub.updateRoot c = Except.error er)
    (hfail2 : ∀ ad, pub.updateRootWithAddrs c ad = Except.error er') :
    Publish e s adv = (Except.ok c, s1) := by
  unfold Publish
  rw [h, hp]

/-- C6: when the engine is constructed with no publisher (publisher kind
"none"), PublishLatest does not skip announcing and return cleanly:
latestAdToPublish returns cid.Undef with no error, after which PublishLatest
unconditionally invokes UpdateRoot on the nil publisher, so the call faults
(nil-interface dispatch panic) instead of returning. -/
theorem C6_publishLatest_faults_without_publisher {e : Env} {s : State}
    (hp : e.publisher = none) :
    PublishLatest e s = PubOutcome.fault ∧
    latestAdToPublish e s = Except.ok Cid.undef := by
  constructor
  · simp [PublishLatest, latestAdToPublish, hp]
  · simp [latestAdToPublish, hp]

/-- C7: for every reverse lookup of a CID, getCidKeyMap probes the legacy
cidToKey mapping first (returning the default provider identity with the
stored context) and only on not-found falls through to cidToProviderAndKey;
when the new mapping's provider field is empty, the engine's default
provider is substituted; and a new put (putKeyCidMap) never writes the
legacy mapping. -/
theorem C7_reverse_lookup_migration :
    (∀ (e : Env) (s : State) (c : Cid) (ctx0 : String),
      dsGet s.ds (cidToKeyKey c) = some (DsVal.ctxOnly ctx0) →
      getCidKeyMap e s c = Except.ok (ProviderAndContext.mk e.provider ctx0))
  ∧ (∀ (e : Env) (s : State) (c : Cid) (q ctx1 : String),
      dsGet s.ds (cidToKeyKey c) = none →
      dsGet s.ds (cidToProviderAndKeyKey c) = some (DsVal.pc q ctx1) →
      q ≠ "" →
      getCidKeyMap e s c = Except.ok (ProviderAndContext.mk q ctx1))
  ∧ (∀ (e : Env) (s : State) (c : Cid) (ctx1 : String),
      dsGet s.ds (cidToKeyKey c) = none →
      dsGet s.ds (cidToProviderAndKeyKey c) = some (DsVal.pc "" ctx1) →
      getCidKeyMap e s c = Except.ok (ProviderAndContext.mk e.provider ctx1))
  ∧ (∀ (e : Env) (s : State) (p x : String) (lnk : Cid) (c2 : Cid),
      dsGet (putKeyCidMap e s p x lnk).ds (cidToKeyKey c2)
        = dsGet s.ds (cidToKeyKey c2)) := by
  refine ⟨?_, ?_, ?_, ?_⟩
  · intro e s c ctx0 h1
    simp [getCidKeyMap, h1, legacyCtxVal]
  · intro e s c q ctx1 h1 h2 hq
    simp [getCidKeyMap, h1, h2, hq]
  · intro e s c ctx1 h1 h2
    simp [getCidKeyMap, h1, h2]
  · intro e s p x lnk c2
    show dsGet (dsPut (dsPut s.ds (keyToCidKey e p x) (DsVal.cidB lnk))
        (cidToProviderAndKeyKey lnk) (DsVal.pc p x)) (cidToKeyKey c2)
      = dsGet s.ds (cidToKeyKey c2)
    rw [dsGet_put_ne _ _ _ _ (by simp [cidToKeyKey, cidToProviderAndKeyKey]),
        dsGet_put_ne _ _ _ _ (by rw [keyToCidKey_eq]; simp [cidToKeyKey])]

/-- C8: for every NotifyPut whose registered lister yields an iterator with
zero multihashes — so that chunking returns no link — the engine substitutes
the NoEntries sentinel as the Entries link and the publish succeeds (given
that the downstream serialization, signing, validation and store steps
succeed, as they are external oracles); it does not return an error. -/
theorem C8_empty_iterator_noEntries {e : Env} {s : State} {p : String}
    {a : List String} {x : String} {md : Metadata} {prev : Cid}
    {L : String → String → Except Err (List Mh)} {it : List Mh}
    (hL : e.mhLister = some L) (hIt : L p x = Except.ok it)
    (hChunk : e.chunk it = Except.ok none)
    (hFwd : dsGet s.ds (keyToCidKey e p x) = none)
    (hLatest : getLatestAdCid s.ds = Except.ok prev)
    (hTail : HonestTail e) :
    ∃ c s1 adv, publishAdvForIndex e s p a x md false = (Except.ok c, s1) ∧
      lookupBlock s1 c = some adv ∧ adv.entries = noEntriesCid := by
  obtain ⟨hm, hsg, hv, hst⟩ := hTail
  obtain ⟨mb, hmb⟩ := hm md
  obtain ⟨c, hc⟩ := hst (mkAdv p a x mb noEntriesCid false prev)
  have h1 : getKeyCidMapOr e s p x = Except.ok Cid.undef := by
    simp [getKeyCidMapOr, getKeyCidMap, hFwd]
  have h2 : notRmEntries e s p x md Cid.undef
      = Except.ok (noEntriesCid, putKeyCidMap e s p x noEntriesCid) := by
    simp [notRmEntries, hL, hIt, hChunk]
  have h3 : putKeyMetadataMap e (putKeyCidMap e s p x noEntriesCid) p x md
      = Except.ok (State.mk
          (dsPut (putKeyCidMap e s p x noEntriesCid).ds
            (keyToMetadataKey e p x) (DsVal.bytes mb))
          s.blocks) := by
    simp [putKeyMetadataMap, hmb]
    rfl
  have h4 : getLatestAdCid (dsPut (putKeyCidMap e s p x noEntriesCid).ds
      (keyToMetadataKey e p x) (DsVal.bytes mb)) = Except.ok prev := by
    rw [getLatestAdCid_put _ _ _ (latest_ne_keyToMetadataKey e p x),
        putKeyCidMap_latest, hLatest]
  have h5 : finishAdv e (State.mk (dsPut (putKeyCidMap e s p x noEntriesCid).ds
        (keyToMetadataKey e p x) (DsVal.bytes mb)) s.blocks)
      p a x md noEntriesCid false
      = (Except.ok c, State.mk
          (putLatestAdv (dsPut (putKeyCidMap e s p x noEntriesCid).ds
            (keyToMetadataKey e p x) (DsVal.bytes mb)) c)
          ((c, mkAdv p a x mb noEntriesCid false prev) :: s.blocks)) := by
    simp [finishAdv, hmb, h4, hsg, Publish, PublishLocal, hv, hc]
    cases e.publisher <;> rfl
  refine ⟨c, State.mk
      (putLatestAdv (dsPut (putKeyCidMap e s p x noEntriesCid).ds
        (keyToMetadataKey e p x) (DsVal.bytes mb)) c)
      ((c, mkAdv p a x mb noEntriesCid false prev) :: s.blocks),
    mkAdv p a x mb noEntriesCid false prev, ?_, ?_, rfl⟩
  · simp [publishAdvForIndex, h1, h2, h3, h5]
  · exact lookupBlock_cons_self _ _ _ _

/-- C9: on the read side, for an advertisement whose entry-chunk chain
exceeds the configured recursion depth, Drain returns every multihash
reachable within the depth bound together with the distinguished not-found
condition as an in-band truncation signal, doGetAdvertisements treats that
signal as success (not an error) and still reports the chunks traversed via
ChunkCount. -/
theorem C9_drain_truncation {chain : List (List Mh)} {depth : Nat}
    (h : depth < chain.length) :
    drainEntries chain depth
      = ((chain.take depth).flatten, some Err.notFound) ∧
    chunkCount chain depth = depth ∧
    doGetAdvertisements chain depth
      = Except.ok (AdOutput.mk (chain.take depth).flatten true depth
          ((chain.take depth).flatten).length) := by
  have h1 : drainEntries chain depth
      = ((chain.take depth).flatten, some Err.notFound) := by
    simp [drainEntries, h]
  have h2 : chunkCount chain depth = depth := by
    simp [chunkCount, min_eq_right (Nat.le_of_lt h)]
  refine ⟨h1, h2, ?_⟩
  simp [doGetAdvertisements, h1, h2]

/-- C10: publishAdvForIndex is not atomic with respect to the index: when
the signing step after the removal's index mutations fails, the deletions
already committed are not rolled back — the call returns the signing error
with the forward row gone — and retrying the same NotifyRemove then returns
ContextIDNotFound. -/
theorem C10_remove_not_atomic {e : Env} {s : State} {p x : String}
    {c0 : Cid} {mb : List Nat} {er : Err} {pr : Cid}
    (hp : p ≠ "")
    (h0 : dsGet s.ds (keyToCidKey e p x) = some (DsVal.cidB c0))
    (hne : c0 ≠ Cid.undef)
    (hmb : e.marshalMd defaultMetadata = Except.ok mb)
    (hprev : getLatestAdCid s.ds = Except.ok pr)
    (hsign : ∀ adv, e.sign adv = some er) :
    NotifyRemove e s p x
      = (Except.error er,
         deleteKeyMetadataMap e
           (deleteCidKeyMap (deleteKeyCidMap e s p x) c0) p x) ∧
    dsGet (deleteKeyMetadataMap e
        (deleteCidKeyMap (deleteKeyCidMap e s p x) c0) p x).ds
        (keyToCidKey e p x) = none ∧
    NotifyRemove e
        (deleteKeyMetadataMap e
          (deleteCidKeyMap (deleteKeyCidMap e s p x) c0) p x) p x
      = (Except.error Err.contextIDNotFound,
         deleteKeyMetadataMap e
           (deleteCidKeyMap (deleteKeyCidMap e s p x) c0) p x) := by
  obtain ⟨r1, r2, r3, r4⟩ := rmDeletes_rows e s p x c0
  have hg : getKeyCidMapOr e s p x = Except.ok c0 := by
    simp [getKeyCidMapOr, getKeyCidMap, h0, cidFromBytes]
  have hl3 : getLatestAdCid (deleteKeyMetadataMap e
      (deleteCidKeyMap (deleteKeyCidMap e s p x) c0) p x).ds
      = Except.ok pr := by
    rw [rmDeletes_latest, hprev]
  refine ⟨?_, r1, ?_⟩
  · simp [NotifyRemove, hp, publishAdvForIndex, hg, hne, finishAdv, hmb,
      hl3, hsign]
  · have hg2 : getKeyCidMapOr e
        (deleteKeyMetadataMap e
          (deleteCidKeyMap (deleteKeyCidMap e s p x) c0) p x) p x
        = Except.ok Cid.undef := by
      simp [getKeyCidMapOr, getKeyCidMap, r1]
    simp [NotifyRemove, hp, publishAdvForIndex, hg2]

/-- Witness for C1: the three error cases at concrete inputs. -/
theorem C1_noop_error_cases_witness :
    publishAdvForIndex envNoLister stEmpty "pv" ["a1"] "x" [5] false
      = (Except.error Err.noMultihashLister, stEmpty) ∧
    publishAdvForIndex envW stRow "pv" ["a1"] "x" [5] false
      = (Except.error Err.alreadyAdvertised, stRow) ∧
    publishAdvForIndex envW stEmpty "pv" ["a1"] "x" [5] true
      = (Except.error Err.contextIDNotFound, stEmpty) :=
  ⟨C1_noop_error_cases.1 envNoLister stEmpty "pv" ["a1"] "x" [5]
     (by decide) rfl,
   C1_noop_error_cases.2.1 envW stRow "pv" ["a1"] "x" [5] [5] (Cid.mk 7)
     (by decide) (by decide) (by decide) rfl,
   C1_noop_error_cases.2.2 envW stEmpty "pv" ["a1"] "x" [5] (by decide)⟩

/-- Witness for the amended C2: a concrete successful publish run from the
empty state, whose head pointer afterwards is the returned CID; the write
path contains no lock operations. -/
theorem C2_writePath_lockFree_headAdvance_witness :
    publishAdvForIndexLockOps = [] ∧ notifyPutLockOps = [] ∧
    notifyRemoveLockOps = [] ∧ publishLockOps = [] ∧
    publishLocalLockOps = [] ∧
    registerMultihashListerLockOps
      = [LockOp.acquire "cblk", LockOp.release "cblk"] ∧
    getLatestAdCid
        (publishAdvForIndex envW stEmpty "pv" ["a1"] "x" [5] false).2.ds
      = Except.ok (Cid.mk 91) :=
  C2_writePath_lockFree_headAdvance
    (by decide : publishAdvForIndex envW stEmpty "pv" ["a1"] "x" [5] false
      = (Except.ok (Cid.mk 91),
         (publishAdvForIndex envW stEmpty "pv" ["a1"] "x" [5] false).2))

/-- Witness for C3: a genesis publish followed by a chained publish at
concrete inputs. -/
theorem C3_previousID_chain_witness :
    (∃ adv1,
      lookupBlock (publishAdvForIndex envW stEmpty "pv" ["a1"] "x" [5] false).2
          (Cid.mk 91) = some adv1 ∧ adv1.previousID = none) ∧
    (∃ adv2,
      lookupBlock (publishAdvForIndex envW
            (publishAdvForIndex envW stEmpty "pv" ["a1"] "x" [5] false).2
            "pv" ["a1"] "yy" [5] false).2
          (Cid.mk 92) = some adv2 ∧ adv2.previousID = some (Cid.mk 91)) :=
  let r := C3_previousID_chain
    (by decide : publishAdvForIndex envW stEmpty "pv" ["a1"] "x" [5] false
      = (Except.ok (Cid.mk 91),
         (publishAdvForIndex envW stEmpty "pv" ["a1"] "x" [5] false).2))
    (by decide : publishAdvForIndex envW
        (publishAdvForIndex envW stEmpty "pv" ["a1"] "x" [5] false).2
        "pv" ["a1"] "yy" [5] false
      = (Except.ok (Cid.mk 92),
         (publishAdvForIndex envW
           (publishAdvForIndex envW stEmpty "pv" ["a1"] "x" [5] false).2
           "pv" ["a1"] "yy" [5] false).2))
    (by decide : Cid.mk 91 ≠ Cid.undef)
  ⟨r.1 (by decide : getLatestAdCid stEmpty.ds = Except.ok Cid.undef), r.2⟩

/-- Witness for C4: a concrete removal from a state holding all four index
rows for context "x". -/
theorem C4_removal_deletes_rows_witness :
    dsGet (publishAdvForIndex envW stRow "pv" ["a1"] "x" [] true).2.ds
        (keyToCidKey envW "pv" "x") = none ∧
    dsGet (publishAdvForIndex envW stRow "pv" ["a1"] "x" [] true).2.ds
        (cidToKeyKey (Cid.mk 7)) = none ∧
    dsGet (publishAdvForIndex envW stRow "pv" ["a1"] "x" [] true).2.ds
        (cidToProviderAndKeyKey (Cid.mk 7)) = none ∧
    dsGet (publishAdvForIndex envW stRow "pv" ["a1"] "x" [] true).2.ds
        (keyToMetadataKey envW "pv" "x") = none ∧
    ∃ adv mdB,
      lookupBlock (publishAdvForIndex envW stRow "pv" ["a1"] "x" [] true).2
          (Cid.mk 91) = some adv ∧
      adv.entries = noEntriesCid ∧ adv.isRm = true ∧
      envW.marshalMd defaultMetadata = Except.ok mdB ∧ adv.metadata = mdB :=
  C4_removal_deletes_rows
    (by decide : dsGet stRow.ds (keyToCidKey envW "pv" "x")
      = some (DsVal.cidB (Cid.mk 7)))
    (by decide : Cid.mk 7 ≠ Cid.undef)
    (by decide : publishAdvForIndex envW stRow "pv" ["a1"] "x" [] true
      = (Except.ok (Cid.mk 91),
         (publishAdvForIndex envW stRow "pv" ["a1"] "x" [] true).2))

/-- Witness for C5: a concrete Publish whose publisher fails every announce
still returns the locally published CID and state. -/
theorem C5_announce_failure_swallowed_witness :
    Publish envFailPub stEmpty
        (mkAdv "pv" ["a1"] "x" [5] (Cid.mk 7) false Cid.undef)
      = (Except.ok (Cid.mk 91),
         (PublishLocal envFailPub stEmpty
           (mkAdv "pv" ["a1"] "x" [5] (Cid.mk 7) false Cid.undef)).2) :=
  C5_announce_failure_swallowed
    (by decide : PublishLocal envFailPub stEmpty
        (mkAdv "pv" ["a1"] "x" [5] (Cid.mk 7) false Cid.undef)
      = (Except.ok (Cid.mk 91),
         (PublishLocal envFailPub stEmpty
           (mkAdv "pv" ["a1"] "x" [5] (Cid.mk 7) false Cid.undef)).2))
    rfl rfl (fun _ => rfl)

/-- Witness for C6: with no publisher configured, PublishLatest faults. -/
theorem C6_publishLatest_faults_without_publisher_witness :
    PublishLatest envNoPub stEmpty = PubOutcome.fault ∧
    latestAdToPublish envNoPub stEmpty = Except.ok Cid.undef :=
  C6_publishLatest_faults_without_publisher rfl

/-- Witness for C7: the four migration behaviours at concrete states. -/
theorem C7_reverse_lookup_migration_witness :
    getCidKeyMap envW stRow (Cid.mk 7)
      = Except.ok (ProviderAndContext.mk "pv" "x") ∧
    getCidKeyMap envW stNew (Cid.mk 8)
      = Except.ok (ProviderAndContext.mk "q1" "x") ∧
    getCidKeyMap envW stNewEmpty (Cid.mk 9)
      = Except.ok (ProviderAndContext.mk "pv" "x") ∧
    dsGet (putKeyCidMap envW stEmpty "pv" "x" (Cid.mk 7)).ds
        (cidToKeyKey (Cid.mk 5))
      = dsGet stEmpty.ds (cidToKeyKey (Cid.mk 5)) :=
  ⟨C7_reverse_lookup_migration.1 envW stRow (Cid.mk 7) "x" (by decide),
   C7_reverse_lookup_migration.2.1 envW stNew (Cid.mk 8) "q1" "x"
     (by decide) (by decide) (by decide),
   C7_reverse_lookup_migration.2.2.1 envW stNewEmpty (Cid.mk 9) "x"
     (by decide) (by decide),
   C7_reverse_lookup_migration.2.2.2 envW stEmpty "pv" "x" (Cid.mk 7)
     (Cid.mk 5)⟩

/-- Witness for C8: a NotifyPut for context "e", whose lister yields zero
multihashes, succeeds with the NoEntries sentinel as the entries link. -/
theorem C8_empty_iterator_noEntries_witness :
    ∃ c s1 adv,
      publishAdvForIndex envW stEmpty "pv" ["a1"] "e" [5] false
        = (Except.ok c, s1) ∧
      lookupBlock s1 c = some adv ∧ adv.entries = noEntriesCid :=
  C8_empty_iterator_noEntries rfl rfl rfl
    (by decide : dsGet stEmpty.ds (keyToCidKey envW "pv" "e") = none)
    (by decide : getLatestAdCid stEmpty.ds = Except.ok Cid.undef)
    ⟨fun m => ⟨m, rfl⟩, fun _ => rfl, fun _ => rfl,
     fun adv => ⟨Cid.mk (90 + adv.contextID.length), rfl⟩⟩

/-- Witness for C9: a two-chunk chain read with recursion depth one. -/
theorem C9_drain_truncation_witness :
    drainEntries [[[1]], [[2]]] 1 = ([[1]], some Err.notFound) ∧
    chunkCount [[[1]], [[2]]] 1 = 1 ∧
    doGetAdvertisements [[[1]], [[2]]] 1
      = Except.ok (AdOutput.mk [[1]] true 1 1) :=
  C9_drain_truncation (by decide)

/-- Witness for C10: a removal under a failing signer at concrete inputs:
the deletions persist, and the retry fails ContextIDNotFound. -/
theorem C10_remove_not_atomic_witness :
    NotifyRemove envSignFail stRow "pv" "x"
      = (Except.error (Err.other "sig"),
         deleteKeyMetadataMap envSignFail
           (deleteCidKeyMap (deleteKeyCidMap envSignFail stRow "pv" "x")
             (Cid.mk 7)) "pv" "x") ∧
    dsGet (deleteKeyMetadataMap envSignFail
        (deleteCidKeyMap (deleteKeyCidMap envSignFail stRow "pv" "x")
          (Cid.mk 7)) "pv" "x").ds
        (keyToCidKey envSignFail "pv" "x") = none ∧
    NotifyRemove envSignFail
        (deleteKeyMetadataMap envSignFail
          (deleteCidKeyMap (deleteKeyCidMap envSignFail stRow "pv" "x")
            (Cid.mk 7)) "pv" "x") "pv" "x"
      = (Except.error Err.contextIDNotFound,
         deleteKeyMetadataMap envSignFail
           (deleteCidKeyMap (deleteKeyCidMap envSignFail stRow "pv" "x")
             (Cid.mk 7)) "pv" "x") :=
  C10_remove_not_atomic (by decide)
    (by decide : dsGet stRow.ds (keyToCidKey envSignFail "pv" "x")
      = some (DsVal.cidB (Cid.mk 7)))
    (by decide : Cid.mk 7 ≠ Cid.undef) rfl
    (by decide : getLatestAdCid stRow.ds = Except.ok Cid.undef)
    (fun _ => rfl)

end IndexProviderEngine
